import Mathlib

/-!
Verification of the property-marshalling and class-metadata resolution core
of the neomodantic object-graph mapper.

The definitions below are shallow embeddings of:
* `PropertyManager.defined_properties`, `PropertyManager.deflate` and
  `PropertyManager.__init__` (src/neomodel/sync_/property_manager.py);
* `RelationshipMeta.__new__` and the identity accessors of
  `AsyncStructuredRel` (src/neomodantic/async_/relationship.py);
* `NeomodelPoint` and `PointProperty`
  (src/neomodantic/contrib/spatial_properties.py, Shapely >= 2.0 branch).

Python dictionaries are modelled as association lists with insertion-order
preserving update (`dictInsert`), optional values as `Option`, and raised
exceptions as the `Except` monad.
-/

set_option maxHeartbeats 1000000

namespace Neomodantic

/-- Left-biased choice on options, modelling Python's `x if x is not None else y`. -/
def optOr {α : Type} : Option α → Option α → Option α
  | some a, _ => some a
  | none, b => b

theorem optOr_none_left {α : Type} (o : Option α) : optOr none o = o := rfl

theorem optOr_none_right {α : Type} (o : Option α) : optOr o none = o := by
  cases o <;> rfl

theorem optOr_assoc {α : Type} (a b c : Option α) :
    optOr (optOr a b) c = optOr a (optOr b c) := by
  cases a <;> cases b <;> rfl

/-- Python dict assignment `d[k] = v`: if `k` is already a key its value is
replaced in place (insertion order kept), otherwise the pair is appended. -/
def dictInsert {α : Type} (d : List (String × α)) (k : String) (v : α) :
    List (String × α) :=
  if (d.lookup k).isSome then
    d.map (fun kv => if kv.1 = k then (k, v) else kv)
  else d ++ [(k, v)]

/-- Python `d.update(new)`: insert every pair of `new`, in order, into `d`. -/
def dictUpdate {α : Type} (d new : List (String × α)) : List (String × α) :=
  new.foldl (fun acc kv => dictInsert acc kv.1 kv.2) d

theorem lookup_append {α : Type} (l₁ l₂ : List (String × α)) (k : String) :
    (l₁ ++ l₂).lookup k = optOr (l₁.lookup k) (l₂.lookup k) := by
  induction l₁ with
  | nil => simp [optOr]
  | cons a t ih =>
    by_cases h : k = a.1
    · simp [List.lookup, h, optOr]
    · simp [List.lookup, beq_eq_false_iff_ne.mpr h, ih]

theorem lookup_eq_none_of_not_mem {α : Type} (d : List (String × α)) (k : String)
    (h : k ∉ d.map Prod.fst) : d.lookup k = none := by
  induction d with
  | nil => rfl
  | cons a t ih =>
    simp only [List.map_cons, List.mem_cons] at h
    push_neg at h
    simp [List.lookup, beq_eq_false_iff_ne.mpr h.1, ih h.2]

theorem mem_of_lookup_isSome {α : Type} (d : List (String × α)) (k : String)
    (h : (d.lookup k).isSome) : k ∈ d.map Prod.fst := by
  by_contra hmem
  rw [lookup_eq_none_of_not_mem d k hmem] at h
  simp at h

theorem lookup_map_replace {α : Type} (d : List (String × α)) (k k' : String) (v : α)
    (h : k' ≠ k) :
    (d.map (fun kv => if kv.1 = k then (k, v) else kv)).lookup k' = d.lookup k' := by
  induction d with
  | nil => rfl
  | cons a t ih =>
    by_cases ha : a.1 = k
    · simp only [List.map_cons, if_pos ha]
      simp [List.lookup, beq_eq_false_iff_ne.mpr h, beq_eq_false_iff_ne.mpr (ha ▸ h), ih]
    · simp only [List.map_cons, if_neg ha]
      by_cases hk : k' = a.1
      · simp [List.lookup, hk]
      · simp [List.lookup, beq_eq_false_iff_ne.mpr hk, ih]

theorem lookup_map_replace_self {α : Type} (d : List (String × α)) (k : String) (v : α)
    (h : (d.lookup k).isSome) :
    (d.map (fun kv => if kv.1 = k then (k, v) else kv)).lookup k = some v := by
  induction d with
  | nil => simp [List.lookup] at h
  | cons a t ih =>
    rw [List.map_cons]
    by_cases ha : a.1 = k
    · rw [if_pos ha]
      simp [List.lookup]
    · rw [if_neg ha]
      have hk : (k == a.1) = false := beq_eq_false_iff_ne.mpr (fun e => ha e.symm)
      simp only [List.lookup, hk] at h ⊢
      exact ih h

theorem lookup_dictInsert_self {α : Type} (d : List (String × α)) (k : String) (v : α) :
    (dictInsert d k v).lookup k = some v := by
  unfold dictInsert
  by_cases h : (d.lookup k).isSome
  · rw [if_pos h]
    exact lookup_map_replace_self d k v h
  · rw [if_neg h]
    rw [lookup_append]
    rw [Option.not_isSome_iff_eq_none] at h
    simp [h, List.lookup, optOr]

theorem lookup_dictInsert_ne {α : Type} (d : List (String × α)) (k k' : String) (v : α)
    (h : k' ≠ k) : (dictInsert d k v).lookup k' = d.lookup k' := by
  unfold dictInsert
  by_cases hs : (d.lookup k).isSome
  · simp only [if_pos hs]
    exact lookup_map_replace d k k' v h
  · simp only [if_neg hs]
    rw [lookup_append]
    simp [List.lookup, beq_eq_false_iff_ne.mpr h, optOr_none_right]

theorem lookup_dictInsert_isSome {α : Type} (d : List (String × α)) (k k' : String) (v : α) :
    ((dictInsert d k v).lookup k').isSome ↔ k' = k ∨ (d.lookup k').isSome := by
  by_cases h : k' = k
  · subst h
    simp [lookup_dictInsert_self]
  · rw [lookup_dictInsert_ne d k k' v h]
    simp [h]

theorem keys_dictInsert {α : Type} (d : List (String × α)) (k : String) (v : α) :
    (dictInsert d k v).map Prod.fst =
      if (d.lookup k).isSome then d.map Prod.fst else d.map Prod.fst ++ [k] := by
  unfold dictInsert
  by_cases h : (d.lookup k).isSome
  · simp only [if_pos h, List.map_map]
    apply List.map_congr_left
    intro kv _
    by_cases hk : kv.1 = k
    · simp [hk]
    · simp [hk]
  · simp [if_neg h]

theorem lookup_isSome_of_mem {α : Type} (d : List (String × α)) (k : String)
    (h : k ∈ d.map Prod.fst) : (d.lookup k).isSome := by
  induction d with
  | nil => simp at h
  | cons a t ih =>
    simp only [List.map_cons, List.mem_cons] at h
    by_cases hk : k = a.1
    · simp [List.lookup, hk]
    · simp only [List.lookup, beq_eq_false_iff_ne.mpr hk]
      exact ih (h.resolve_left hk)

theorem nodup_keys_dictInsert {α : Type} (d : List (String × α)) (k : String) (v : α)
    (h : (d.map Prod.fst).Nodup) : ((dictInsert d k v).map Prod.fst).Nodup := by
  rw [keys_dictInsert]
  by_cases hs : (d.lookup k).isSome
  · simpa [hs] using h
  · rw [if_neg hs]
    refine List.Nodup.append h (List.nodup_singleton k) ?_
    intro x hx hx'
    simp only [List.mem_singleton] at hx'
    subst hx'
    exact hs (lookup_isSome_of_mem d x hx)

theorem lookup_dictUpdate {α : Type} (new d : List (String × α)) (k : String) :
    (dictUpdate d new).lookup k = optOr (new.reverse.lookup k) (d.lookup k) := by
  induction new generalizing d with
  | nil => simp [dictUpdate, optOr]
  | cons a t ih =>
    show (dictUpdate (dictInsert d a.1 a.2) t).lookup k = _
    rw [ih]
    rw [List.reverse_cons, lookup_append, optOr_assoc]
    congr 1
    by_cases hk : k = a.1
    · subst hk
      simp [List.lookup, lookup_dictInsert_self, optOr]
    · rw [lookup_dictInsert_ne d a.1 k a.2 hk]
      simp [List.lookup, beq_eq_false_iff_ne.mpr hk, optOr]

theorem nodup_keys_dictUpdate {α : Type} (new d : List (String × α))
    (h : (d.map Prod.fst).Nodup) : ((dictUpdate d new).map Prod.fst).Nodup := by
  induction new generalizing d with
  | nil => exact h
  | cons a t ih =>
    exact ih (dictInsert d a.1 a.2) (nodup_keys_dictInsert d a.1 a.2 h)

theorem findSome?_append {α β : Type} (l₁ l₂ : List α) (f : α → Option β) :
    (l₁ ++ l₂).findSome? f = optOr (l₁.findSome? f) (l₂.findSome? f) := by
  induction l₁ with
  | nil => simp [List.findSome?, optOr]
  | cons a t ih =>
    simp only [List.cons_append, List.findSome?]
    cases f a <;> simp [optOr, ih]

theorem findSome?_congr_mem {α β : Type} (l : List α) (f g : α → Option β)
    (h : ∀ x ∈ l, f x = g x) : l.findSome? f = l.findSome? g := by
  induction l with
  | nil => rfl
  | cons a t ih =>
    simp only [List.findSome?]
    rw [h a (List.mem_cons_self a t), ih (fun x hx => h x (List.mem_cons_of_mem a hx))]

theorem lookup_reverse_of_nodup {α : Type} (l : List (String × α)) (k : String)
    (h : (l.map Prod.fst).Nodup) : l.reverse.lookup k = l.lookup k := by
  induction l with
  | nil => rfl
  | cons a t ih =>
    rw [List.reverse_cons, lookup_append]
    simp only [List.map_cons, List.nodup_cons] at h
    by_cases hk : k = a.1
    · subst hk
      rw [lookup_eq_none_of_not_mem t.reverse a.1 (by simpa using h.1)]
      simp [List.lookup, optOr]
    · rw [ih h.2]
      simp [List.lookup, beq_eq_false_iff_ne.mpr hk, optOr_none_right]

/-! ## Schema resolver: `PropertyManager.defined_properties`
(src/neomodel/sync_/property_manager.py, lines 123-154) -/

/-- The three kinds of descriptor a class-body attribute can be:
an `AliasProperty`, a plain `Property`, or a `RelationshipDefinition`. -/
inductive DescrKind
  | propertyKind
  | relationshipKind
  | aliasKind
deriving DecidableEq

/-- The filter applied to each ancestor's directly declared descriptors:
`(aliases and isinstance(property, AliasProperty)) or (properties and ...) or
(rels and ...)`. -/
def keepKind (aliases properties rels : Bool) : DescrKind → Bool
  | .aliasKind => aliases
  | .propertyKind => properties
  | .relationshipKind => rels

/-- A class in the method-resolution order, given by its directly declared
descriptors (`vars(baseclass)` merged with the declarative `model_fields`
defaults, which the source merges identically), keyed by attribute name. -/
def declaredOf {δ : Type} (kindOf : δ → DescrKind) (aliases properties rels : Bool)
    (clsDict : List (String × δ)) : List (String × δ) :=
  clsDict.filter (fun kv => keepKind aliases properties rels (kindOf kv.2))

/-- `PropertyManager.defined_properties`: iterate `reversed(cls.__mro__)`
(most ancestral first) and merge each ancestor's filtered descriptors into the
accumulating dict, so a more derived class's entry replaces an earlier one.
`mro` is given in Python `__mro__` order: most derived class first. -/
def defined_properties {δ : Type} (kindOf : δ → DescrKind)
    (mro : List (List (String × δ))) (aliases properties rels : Bool) :
    List (String × δ) :=
  mro.reverse.foldl
    (fun acc c => dictUpdate acc (declaredOf kindOf aliases properties rels c)) []

theorem lookup_foldl_dictUpdate {α : Type} (L : List (List (String × α)))
    (acc : List (String × α)) (k : String) :
    ((L.foldl dictUpdate acc).lookup k) =
      optOr (L.reverse.findSome? (fun c => c.reverse.lookup k)) (acc.lookup k) := by
  induction L generalizing acc with
  | nil => simp [List.foldl, List.findSome?, optOr]
  | cons c rest ih =>
    show ((rest.foldl dictUpdate (dictUpdate acc c)).lookup k) = _
    rw [ih, List.reverse_cons, findSome?_append, optOr_assoc, lookup_dictUpdate]
    congr 1
    simp [List.findSome?, optOr]
    cases c.reverse.lookup k <;> simp [optOr]

theorem nodup_keys_foldl_dictUpdate {α : Type} (L : List (List (String × α)))
    (acc : List (String × α)) (h : (acc.map Prod.fst).Nodup) :
    ((L.foldl dictUpdate acc).map Prod.fst).Nodup := by
  induction L generalizing acc with
  | nil => exact h
  | cons c t ih => exact ih (dictUpdate acc c) (nodup_keys_dictUpdate c acc h)

theorem findSome?_comp_map {α β γ : Type} (l : List α) (g : α → β) (f : β → Option γ) :
    (l.map g).findSome? f = l.findSome? (fun x => f (g x)) := by
  induction l with
  | nil => rfl
  | cons a t ih =>
    simp only [List.map_cons, List.findSome?]
    cases f (g a) <;> simp [ih]

theorem nodup_keys_declaredOf {δ : Type} (kindOf : δ → DescrKind)
    (aliases properties rels : Bool) (c : List (String × δ))
    (h : (c.map Prod.fst).Nodup) :
    ((declaredOf kindOf aliases properties rels c).map Prod.fst).Nodup :=
  List.Nodup.sublist (List.Sublist.map Prod.fst (List.filter_sublist c)) h

/-- C1: for every class, `defined_properties` maps each attribute name declared
anywhere in the ancestry to exactly one descriptor — the one from the most
derived ancestor declaring that name.  `mro` lists the ancestry most-derived
first, as Python's `__mro__` does; the source iterates it reversed (most
ancestral first) and a later, more derived, class's entry replaces an earlier
one, so the resulting lookup agrees with `findSome?` over the ancestry in
most-derived-first order, and the resulting keys are unique. -/
theorem defined_properties_most_derived_wins {δ : Type} (kindOf : δ → DescrKind)
    (mro : List (List (String × δ))) (aliases properties rels : Bool) (n : String)
    (hnd : ∀ c ∈ mro, (c.map Prod.fst).Nodup) :
    ((defined_properties kindOf mro aliases properties rels).map Prod.fst).Nodup ∧
    (defined_properties kindOf mro aliases properties rels).lookup n =
      mro.findSome?
        (fun c => (declaredOf kindOf aliases properties rels c).lookup n) := by
  have key : defined_properties kindOf mro aliases properties rels =
      (mro.reverse.map (declaredOf kindOf aliases properties rels)).foldl dictUpdate [] := by
    unfold defined_properties
    rw [List.foldl_map]
  constructor
  · rw [key]
    exact nodup_keys_foldl_dictUpdate _ _ (by simp)
  · rw [key, lookup_foldl_dictUpdate]
    have hrev : (mro.reverse.map (declaredOf kindOf aliases properties rels)).reverse =
        mro.map (declaredOf kindOf aliases properties rels) := by
      rw [← List.map_reverse, List.reverse_reverse]
    rw [hrev, findSome?_comp_map]
    have : (List.lookup n ([] : List (String × δ))) = none := rfl
    rw [this, optOr_none_right]
    apply findSome?_congr_mem
    intro c hc
    exact lookup_reverse_of_nodup _ n
      (nodup_keys_declaredOf kindOf aliases properties rels c (hnd c hc))

/-- Witness for C1 at a concrete two-class hierarchy in which the derived class
redeclares `p`: the resolved descriptor for `p` is the derived one. -/
theorem defined_properties_most_derived_wins_witness :
    (∀ c ∈ [[("p", (1 : Nat))], [("p", 2), ("q", 3)]], (List.map Prod.fst c).Nodup) ∧
    (((defined_properties (fun _ : Nat => DescrKind.propertyKind)
        [[("p", 1)], [("p", 2), ("q", 3)]] true true true).map Prod.fst).Nodup ∧
      (defined_properties (fun _ : Nat => DescrKind.propertyKind)
        [[("p", 1)], [("p", 2), ("q", 3)]] true true true).lookup "p" =
        [[("p", (1 : Nat))], [("p", 2), ("q", 3)]].findSome?
          (fun c => (declaredOf (fun _ : Nat => DescrKind.propertyKind)
            true true true c).lookup "p")) :=
  ⟨by decide,
   defined_properties_most_derived_wins (fun _ : Nat => DescrKind.propertyKind)
     [[("p", 1)], [("p", 2), ("q", 3)]] true true true "p" (by decide)⟩

/-! ## Property descriptors, `PropertyManager.__init__` and
`PropertyManager.deflate` (src/neomodel/sync_/property_manager.py, lines 21-34
and 78-100) -/

/-- The slice of a `Property` descriptor consulted by the property manager:
`required`, `has_default`, the stored default (`default_value()` materializes
it), the optional wire-name override `db_property`, and the descriptor's own
deflation function. -/
structure PropD (V W : Type) where
  required : Bool
  has_default : Bool
  default : V
  db_property : Option String
  deflateFn : V → W

/-- `Property.get_db_property_name(name)`: the `db_property` override if set,
else the attribute name itself. -/
def get_db_property_name {V W : Type} (p : PropD V W) (name : String) : String :=
  p.db_property.getD name

/-- The `RequiredProperty(name, cls)` exception payload. -/
structure RequiredPropertyErr where
  propName : String
  clsName : String
deriving DecidableEq

/-- The loop body of `PropertyManager.deflate`, iterating the resolved property
schema in order and building the output dict; raising `RequiredProperty` aborts
the loop. Mirrors lines 89-100 of the source: value present and non-None →
deflate it; else default → deflate the materialized default; else required →
raise; else skip or emit None under the wire name. -/
def deflateGo {V W : Type} (cls : String) (bag : String → Option V)
    (skip_empty : Bool) :
    List (String × PropD V W) → List (String × Option W) →
    Except RequiredPropertyErr (List (String × Option W))
  | [], acc => .ok acc
  | (name, p) :: rest, acc =>
    match bag name with
    | some v =>
      deflateGo cls bag skip_empty rest
        (dictInsert acc (get_db_property_name p name) (some (p.deflateFn v)))
    | none =>
      if p.has_default then
        deflateGo cls bag skip_empty rest
          (dictInsert acc (get_db_property_name p name) (some (p.deflateFn p.default)))
      else if p.required then .error ⟨name, cls⟩
      else if skip_empty then deflateGo cls bag skip_empty rest acc
      else
        deflateGo cls bag skip_empty rest
          (dictInsert acc (get_db_property_name p name) none)

/-- `PropertyManager.deflate(properties, obj, skip_empty)` over the resolved
property-only schema (`defined_properties(aliases=False, rels=False)`), as a
function of that schema; `bag` maps an attribute name to its non-None value if
any (Python's `properties.get(name) is not None` test). -/
def PropertyManager.deflate {V W : Type} (cls : String)
    (schema : List (String × PropD V W)) (bag : String → Option V)
    (skip_empty : Bool) : Except RequiredPropertyErr (List (String × Option W)) :=
  deflateGo cls bag skip_empty schema []

/-- The property-assignment loop of `PropertyManager.__init__` (lines 27-34):
a supplied non-None keyword wins; otherwise the materialized default if
`has_default`; otherwise the slot is set to None. -/
def instantiateProps {V W : Type} (schema : List (String × PropD V W))
    (kwargs : String → Option V) : List (String × Option V) :=
  schema.map (fun np => (np.1,
    match kwargs np.1 with
    | some v => some v
    | none => if np.2.has_default then some np.2.default else none))

theorem deflateGo_lookup_frame {V W : Type} (cls : String) (bag : String → Option V)
    (skip_empty : Bool) (schema : List (String × PropD V W)) :
    ∀ (acc : List (String × Option W)) (k : String),
      k ∉ schema.map (fun np => get_db_property_name np.2 np.1) →
      ∀ m, deflateGo cls bag skip_empty schema acc = .ok m →
        m.lookup k = acc.lookup k := by
  induction schema with
  | nil =>
    intro acc k _ m h
    simp only [deflateGo] at h
    cases h
    rfl
  | cons np rest ih =>
    obtain ⟨name, p⟩ := np
    intro acc k hk m h
    simp only [List.map_cons, List.mem_cons] at hk
    push_neg at hk
    obtain ⟨hk1, hk2⟩ := hk
    cases hbag : bag name with
    | some v =>
      simp only [deflateGo, hbag] at h
      rw [ih _ k hk2 m h, lookup_dictInsert_ne _ _ _ _ hk1]
    | none =>
      simp only [deflateGo, hbag] at h
      by_cases hd : p.has_default = true
      · rw [if_pos hd] at h
        rw [ih _ k hk2 m h, lookup_dictInsert_ne _ _ _ _ hk1]
      · rw [if_neg hd] at h
        by_cases hr : p.required = true
        · rw [if_pos hr] at h
          exact Except.noConfusion h
        · rw [if_neg hr] at h
          by_cases hs : skip_empty = true
          · rw [if_pos hs] at h
            exact ih _ k hk2 m h
          · rw [if_neg hs] at h
            rw [ih _ k hk2 m h, lookup_dictInsert_ne _ _ _ _ hk1]

theorem deflateGo_lookup_entry {V W : Type} (cls : String) (bag : String → Option V)
    (skip_empty : Bool) (schema : List (String × PropD V W)) :
    ∀ (acc : List (String × Option W)),
      ((schema.map (fun np => get_db_property_name np.2 np.1)).Nodup) →
      (∀ k ∈ schema.map (fun np => get_db_property_name np.2 np.1),
        acc.lookup k = none) →
      ∀ (name : String) (p : PropD V W), (name, p) ∈ schema →
      ∀ m, deflateGo cls bag skip_empty schema acc = .ok m →
        (∀ v, bag name = some v →
          m.lookup (get_db_property_name p name) = some (some (p.deflateFn v))) ∧
        (bag name = none → p.has_default = true →
          m.lookup (get_db_property_name p name) = some (some (p.deflateFn p.default))) ∧
        (bag name = none → p.has_default = false → p.required = false →
          skip_empty = false →
          m.lookup (get_db_property_name p name) = some none) ∧
        (bag name = none → p.has_default = false → p.required = false →
          skip_empty = true →
          m.lookup (get_db_property_name p name) = none) := by
  induction schema with
  | nil =>
    intro acc _ _ name p hmem
    simp at hmem
  | cons np rest ih =>
    obtain ⟨hname, hp⟩ := np
    intro acc hnd hclean name p hmem m h
    simp only [List.map_cons, List.nodup_cons] at hnd
    obtain ⟨hndb, hndrest⟩ := hnd
    rcases List.mem_cons.mp hmem with heq | hrest
    · -- the entry is the head of the schema
      obtain ⟨e1, e2⟩ := Prod.mk.injEq .. ▸ heq
      subst e1
      subst e2
      have hfr : ∀ acc', deflateGo cls bag skip_empty rest acc' = .ok m →
          m.lookup (get_db_property_name p name) =
            acc'.lookup (get_db_property_name p name) := by
        intro acc' h'
        exact deflateGo_lookup_frame cls bag skip_empty rest acc' _ hndb m h'
      cases hbag : bag name with
      | some v =>
        simp only [deflateGo, hbag] at h
        refine ⟨?_, ?_, ?_, ?_⟩
        · intro v' hv'
          cases hv'
          rw [hfr _ h, lookup_dictInsert_self]
        · intro hc
          cases hc
        · intro hc
          cases hc
        · intro hc
          cases hc
      | none =>
        simp only [deflateGo, hbag] at h
        by_cases hd : p.has_default = true
        · rw [if_pos hd] at h
          refine ⟨?_, ?_, ?_, ?_⟩
          · intro v' hv'
            cases hv'
          · intro _ _
            rw [hfr _ h, lookup_dictInsert_self]
          · intro _ hdf
            rw [hd] at hdf
            cases hdf
          · intro _ hdf
            rw [hd] at hdf
            cases hdf
        · rw [if_neg hd] at h
          by_cases hr : p.required = true
          · rw [if_pos hr] at h
            exact Except.noConfusion h
          · rw [if_neg hr] at h
            by_cases hs : skip_empty = true
            · rw [if_pos hs] at h
              refine ⟨?_, ?_, ?_, ?_⟩
              · intro v' hv'
                cases hv'
              · intro _ hdf
                exact absurd hdf hd
              · intro _ _ _ hsf
                rw [hs] at hsf
                cases hsf
              · intro _ _ _ _
                rw [hfr _ h]
                exact hclean _ (by simp)
            · rw [if_neg hs] at h
              refine ⟨?_, ?_, ?_, ?_⟩
              · intro v' hv'
                cases hv'
              · intro _ hdf
                exact absurd hdf hd
              · intro _ _ _ _
                rw [hfr _ h, lookup_dictInsert_self]
              · intro _ _ _ hst
                rw [eq_false_of_ne_true hs] at hst
                cases hst
    · -- the entry lives in the tail
      have hdbne : get_db_property_name p name ∈
          rest.map (fun np => get_db_property_name np.2 np.1) :=
        List.mem_map.mpr ⟨(name, p), hrest, rfl⟩
      have hne : get_db_property_name p name ≠ get_db_property_name hp hname := by
        intro e
        exact hndb (e ▸ hdbne)
      have hcleanRest : ∀ acc',
          (∀ k ∈ rest.map (fun np => get_db_property_name np.2 np.1),
            acc'.lookup k = none) →
          deflateGo cls bag skip_empty rest acc' = .ok m →
          (∀ v, bag name = some v →
            m.lookup (get_db_property_name p name) = some (some (p.deflateFn v))) ∧
          (bag name = none → p.has_default = true →
            m.lookup (get_db_property_name p name) =
              some (some (p.deflateFn p.default))) ∧
          (bag name = none → p.has_default = false → p.required = false →
            skip_empty = false →
            m.lookup (get_db_property_name p name) = some none) ∧
          (bag name = none → p.has_default = false → p.required = false →
            skip_empty = true →
            m.lookup (get_db_property_name p name) = none) := by
        intro acc' hcl h'
        exact ih acc' hndrest hcl name p hrest m h'
      have hinsClean : ∀ (w : Option W),
          ∀ k ∈ rest.map (fun np => get_db_property_name np.2 np.1),
          (dictInsert acc (get_db_property_name hp hname) w).lookup k = none := by
        intro w k hkmem
        have hkne : k ≠ get_db_property_name hp hname := by
          intro e
          exact hndb (e ▸ hkmem)
        rw [lookup_dictInsert_ne _ _ _ _ hkne]
        exact hclean k (by simp [hkmem])
      cases hbag : bag hname with
      | some v =>
        simp only [deflateGo, hbag] at h
        exact hcleanRest _ (hinsClean _) h
      | none =>
        simp only [deflateGo, hbag] at h
        by_cases hd : hp.has_default = true
        · rw [if_pos hd] at h
          exact hcleanRest _ (hinsClean _) h
        · rw [if_neg hd] at h
          by_cases hr : hp.required = true
          · rw [if_pos hr] at h
            exact Except.noConfusion h
          · rw [if_neg hr] at h
            by_cases hs : skip_empty = true
            · rw [if_pos hs] at h
              exact hcleanRest _
                (fun k hk => hclean k (by simp [hk])) h
            · rw [if_neg hs] at h
              exact hcleanRest _ (hinsClean _) h

theorem deflateGo_keys {V W : Type} (cls : String) (bag : String → Option V)
    (skip_empty : Bool) (schema : List (String × PropD V W)) :
    ∀ (acc : List (String × Option W)) (m : List (String × Option W)),
      deflateGo cls bag skip_empty schema acc = .ok m →
      ∀ k, (m.lookup k).isSome →
        (acc.lookup k).isSome ∨
        k ∈ schema.map (fun np => get_db_property_name np.2 np.1) := by
  induction schema with
  | nil =>
    intro acc m h k hm
    simp only [deflateGo] at h
    cases h
    exact Or.inl hm
  | cons np rest ih =>
    obtain ⟨name, p⟩ := np
    intro acc m h k hm
    have step : ∀ (w : Option W),
        deflateGo cls bag skip_empty rest
          (dictInsert acc (get_db_property_name p name) w) = .ok m →
        (acc.lookup k).isSome ∨
        k ∈ ((name, p) :: rest).map (fun np => get_db_property_name np.2 np.1) := by
      intro w h'
      rcases ih _ m h' k hm with hacc | hmem
      · rcases (lookup_dictInsert_isSome acc _ k w).mp hacc with hkeq | hacc'
        · exact Or.inr (by simp [hkeq])
        · exact Or.inl hacc'
      · exact Or.inr (by simp [hmem])
    cases hbag : bag name with
    | some v =>
      simp only [deflateGo, hbag] at h
      exact step _ h
    | none =>
      simp only [deflateGo, hbag] at h
      by_cases hd : p.has_default = true
      · rw [if_pos hd] at h
        exact step _ h
      · rw [if_neg hd] at h
        by_cases hr : p.required = true
        · rw [if_pos hr] at h
          exact Except.noConfusion h
        · rw [if_neg hr] at h
          by_cases hs : skip_empty = true
          · rw [if_pos hs] at h
            rcases ih _ m h k hm with hacc | hmem
            · exact Or.inl hacc
            · exact Or.inr (by simp [hmem])
          · rw [if_neg hs] at h
            exact step _ h

theorem deflateGo_error_mem {V W : Type} (cls : String) (bag : String → Option V)
    (skip_empty : Bool) (schema : List (String × PropD V W)) :
    ∀ (acc : List (String × Option W)) (e : RequiredPropertyErr),
      deflateGo cls bag skip_empty schema acc = .error e →
      e.clsName = cls ∧ ∃ p, (e.propName, p) ∈ schema ∧ bag e.propName = none ∧
        p.has_default = false ∧ p.required = true := by
  induction schema with
  | nil =>
    intro acc e h
    simp only [deflateGo] at h
    exact Except.noConfusion h
  | cons np rest ih =>
    obtain ⟨name, p⟩ := np
    intro acc e h
    have tail : ∀ acc', deflateGo cls bag skip_empty rest acc' = .error e →
        e.clsName = cls ∧ ∃ p', (e.propName, p') ∈ (name, p) :: rest ∧
          bag e.propName = none ∧ p'.has_default = false ∧ p'.required = true := by
      intro acc' h'
      obtain ⟨hc, p', hmem, hrest⟩ := ih acc' e h'
      exact ⟨hc, p', List.mem_cons_of_mem _ hmem, hrest⟩
    cases hbag : bag name with
    | some v =>
      simp only [deflateGo, hbag] at h
      exact tail _ h
    | none =>
      simp only [deflateGo, hbag] at h
      by_cases hd : p.has_default = true
      · rw [if_pos hd] at h
        exact tail _ h
      · rw [if_neg hd] at h
        by_cases hr : p.required = true
        · rw [if_pos hr] at h
          cases h
          exact ⟨rfl, p, List.mem_cons_self _ _,
            hbag, eq_false_of_ne_true hd, hr⟩
        · rw [if_neg hr] at h
          by_cases hs : skip_empty = true
          · rw [if_pos hs] at h
            exact tail _ h
          · rw [if_neg hs] at h
            exact tail _ h

theorem deflateGo_error_exists {V W : Type} (cls : String) (bag : String → Option V)
    (skip_empty : Bool) (schema : List (String × PropD V W)) :
    ∀ (acc : List (String × Option W)) (name : String) (p : PropD V W),
      (name, p) ∈ schema → bag name = none → p.has_default = false →
      p.required = true →
      ∃ e, deflateGo cls bag skip_empty schema acc = .error e := by
  induction schema with
  | nil =>
    intro acc name p hmem
    simp at hmem
  | cons np rest ih =>
    obtain ⟨hname, hp⟩ := np
    intro acc name p hmem hbag hd hr
    rcases List.mem_cons.mp hmem with heq | hrest
    · injection heq with e1 e2
      subst e1
      subst e2
      simp only [deflateGo, hbag, hd, hr]
      exact ⟨⟨name, cls⟩, by simp⟩
    · cases hbagh : bag hname with
      | some v =>
        simp only [deflateGo, hbagh]
        exact ih _ name p hrest hbag hd hr
      | none =>
        simp only [deflateGo, hbagh]
        by_cases hdh : hp.has_default = true
        · rw [if_pos hdh]
          exact ih _ name p hrest hbag hd hr
        · rw [if_neg hdh]
          by_cases hrh : hp.required = true
          · rw [if_pos hrh]
            exact ⟨⟨hname, cls⟩, rfl⟩
          · rw [if_neg hrh]
            by_cases hsh : skip_empty = true
            · rw [if_pos hsh]
              exact ih _ name p hrest hbag hd hr
            · rw [if_neg hsh]
              exact ih _ name p hrest hbag hd hr

/-- C2: for every class schema and property bag, `PropertyManager.deflate`
applies, per property, the precedence: non-None bag value → deflate it;
else a default → deflate the materialized default; else required → raise
`RequiredProperty` naming the property and the class; else omit the key when
`skip_empty` and emit `None` under the wire name when not.  Every emitted key
is some descriptor's wire (db) name.  Stated under the assumption that the
schema's wire names are pairwise distinct, as Python's dict keys are. -/
theorem deflate_spec {V W : Type} (cls : String)
    (schema : List (String × PropD V W)) (bag : String → Option V)
    (skip_empty : Bool)
    (hnd : (schema.map (fun np => get_db_property_name np.2 np.1)).Nodup) :
    (∀ m, PropertyManager.deflate cls schema bag skip_empty = .ok m →
      (∀ name p, (name, p) ∈ schema →
        (∀ v, bag name = some v →
          m.lookup (get_db_property_name p name) = some (some (p.deflateFn v))) ∧
        (bag name = none → p.has_default = true →
          m.lookup (get_db_property_name p name) =
            some (some (p.deflateFn p.default))) ∧
        (bag name = none → p.has_default = false → p.required = false →
          skip_empty = false →
          m.lookup (get_db_property_name p name) = some none) ∧
        (bag name = none → p.has_default = false → p.required = false →
          skip_empty = true →
          m.lookup (get_db_property_name p name) = none)) ∧
      (∀ k, (m.lookup k).isSome →
        ∃ name p, (name, p) ∈ schema ∧ k = get_db_property_name p name)) ∧
    (∀ e, PropertyManager.deflate cls schema bag skip_empty = .error e →
      e.clsName = cls ∧ ∃ p, (e.propName, p) ∈ schema ∧ bag e.propName = none ∧
        p.has_default = false ∧ p.required = true) ∧
    (∀ name p, (name, p) ∈ schema → bag name = none → p.has_default = false →
      p.required = true →
      ∃ e, PropertyManager.deflate cls schema bag skip_empty = .error e) := by
  refine ⟨?_, ?_, ?_⟩
  · intro m h
    constructor
    · intro name p hmem
      exact deflateGo_lookup_entry cls bag skip_empty schema [] hnd
        (fun k _ => rfl) name p hmem m h
    · intro k hk
      rcases deflateGo_keys cls bag skip_empty schema [] m h k hk with habs | hmem
      · simp [List.lookup] at habs
      · obtain ⟨np, hnp, hdb⟩ := List.mem_map.mp hmem
        exact ⟨np.1, np.2, hnp, hdb.symm⟩
  · intro e h
    exact deflateGo_error_mem cls bag skip_empty schema [] e h
  · intro name p hmem hbag hd hr
    exact deflateGo_error_exists cls bag skip_empty schema [] name p hmem hbag hd hr

/-- A plain property with a wire-name override and no default, used as a
concrete witness input. -/
def exPropA : PropD Nat Nat :=
  { required := false, has_default := false, default := 0,
    db_property := some "dba", deflateFn := fun v => v + 1 }

/-- A property with a default and no wire-name override, used as a concrete
witness input. -/
def exPropB : PropD Nat Nat :=
  { required := false, has_default := true, default := 7,
    db_property := none, deflateFn := fun v => v * 2 }

/-- A concrete property bag supplying only `a`. -/
def exBag : String → Option Nat := fun s => if s = "a" then some 5 else none

/-- Witness for C2 at a concrete two-property schema: the supplied value is
deflated under the wire name `dba`, discharging the distinct-wire-names
hypothesis. -/
theorem deflate_spec_witness :
    (([("a", exPropA), ("b", exPropB)].map
      (fun np => get_db_property_name np.2 np.1)).Nodup) ∧
    ([("dba", some 6), ("b", some 14)] : List (String × Option Nat)).lookup
      (get_db_property_name exPropA "a") = some (some (exPropA.deflateFn 5)) := by
  have h := deflate_spec "N" [("a", exPropA), ("b", exPropB)] exBag false (by decide)
  have hm := (h.1 [("dba", some 6), ("b", some 14)] (by rfl)).1 "a" exPropA
    (List.mem_cons_self _ _)
  exact ⟨by decide, hm.1 5 (by rfl)⟩

/-- A descriptor with both `required` and `has_default` set, as in claim C3. -/
def reqDefProp : PropD Nat Nat :=
  { required := true, has_default := true, default := 42,
    db_property := none, deflateFn := fun v => v }

/-- Counterexample to C3: for a descriptor with both `required` and
`has_default` set and a bag missing the property, `deflate` does not raise the
required-property error — `has_default` is tested first (line 94 before line
96 of the source), so the materialized default is deflated and emitted. -/
theorem deflate_required_default_counterexample :
    PropertyManager.deflate "Cls" [("p", reqDefProp)] (fun _ => none) false =
      .ok [("p", some 42)] ∧
    ¬ ∃ e, PropertyManager.deflate "Cls" [("p", reqDefProp)] (fun _ => none) false =
      .error e := by
  constructor
  · rfl
  · rintro ⟨e, he⟩
    rw [show PropertyManager.deflate "Cls" [("p", reqDefProp)] (fun _ => none) false =
      .ok [("p", some 42)] from rfl] at he
    exact Except.noConfusion he

/-- C3 amended: when a descriptor has both `required` and `has_default` set,
the default wins at construction, and it also wins at deflate time — a bag
missing the property (or holding None) deflates to the materialized default
under the wire name, with no required-property error. -/
theorem required_default_deflate_default_wins {V W : Type} (p : PropD V W)
    (name cls : String) (bag : String → Option V) (skip_empty : Bool)
    (hreq : p.required = true) (hdef : p.has_default = true)
    (hbag : bag name = none) :
    instantiateProps [(name, p)] bag = [(name, some p.default)] ∧
    PropertyManager.deflate cls [(name, p)] bag skip_empty =
      .ok [(get_db_property_name p name, some (p.deflateFn p.default))] := by
  constructor
  · simp [instantiateProps, hbag, hdef]
  · simp [PropertyManager.deflate, deflateGo, hbag, hdef, dictInsert, List.lookup]

/-- Witness for the amended C3 at the concrete descriptor `reqDefProp`. -/
theorem required_default_deflate_default_wins_witness :
    (reqDefProp.required = true ∧ reqDefProp.has_default = true ∧
      (fun _ : String => (none : Option Nat)) "p" = none) ∧
    (instantiateProps [("p", reqDefProp)] (fun _ => none) =
        [("p", some reqDefProp.default)] ∧
      PropertyManager.deflate "Cls" [("p", reqDefProp)] (fun _ => none) false =
        .ok [(get_db_property_name reqDefProp "p",
          some (reqDefProp.deflateFn reqDefProp.default))]) :=
  ⟨⟨rfl, rfl, rfl⟩,
   required_default_deflate_default_wins reqDefProp "p" "Cls" (fun _ => none)
     false rfl rfl rfl⟩

/-! ## `RelationshipMeta.__new__` — the entity metaclass guard
(src/neomodantic/async_/relationship.py, lines 9-38) -/

/-- A `Property` descriptor as seen by the metaclass: its `name` and `owner`
attributes are unbound (`none`) until class construction binds them.
`descrId` distinguishes descriptor instances. -/
structure PropDescrB where
  descrId : Nat
  name : Option String
  owner : Option String
deriving DecidableEq

/-- A class-body attribute: either a `Property` instance or anything else
(handled only through `issubclass(value.__class__, Property)`). -/
inductive ClassBodyEntry
  | prop (d : PropDescrB)
  | plain
deriving DecidableEq

/-- The three `ValueError`s the metaclass can raise for reserved names. -/
inductive MetaErr
  | reservedSourceTarget
  | reservedId
  | reservedElementId
deriving DecidableEq

/-- The loop of `RelationshipMeta.__new__` over the class body `dct`: each
`Property`-valued attribute is rejected if its name is reserved, otherwise its
`name` and `owner` are bound.  Returns the list of bound descriptors of the
newly created class. -/
def bindRelProps (clsName : String) :
    List (String × ClassBodyEntry) → Except MetaErr (List (String × PropDescrB))
  | [] => .ok []
  | (_, .plain) :: rest => bindRelProps clsName rest
  | (key, .prop d) :: rest =>
    if key = "source" ∨ key = "target" then .error .reservedSourceTarget
    else if key = "id" then .error .reservedId
    else if key = "element_id" then .error .reservedElementId
    else
      (bindRelProps clsName rest).map
        (fun r => (key, { d with name := some key, owner := some clsName }) :: r)

/-- `RelationshipMeta.__new__(mcs, name, bases, dct)`: construct the class and
validate/bind its `Property` attributes. -/
def RelationshipMeta.new (clsName : String)
    (dct : List (String × ClassBodyEntry)) :
    Except MetaErr (List (String × PropDescrB)) :=
  bindRelProps clsName dct

/-- C5: declaring a `Property` named `source`, `target`, `id` or `element_id`
anywhere in a relationship entity's class body makes class construction itself
raise (the metaclass fails before the class can ever be instantiated). -/
theorem reserved_names_fail_class_definition (clsName key : String)
    (d : PropDescrB) (dct : List (String × ClassBodyEntry))
    (hmem : (key, ClassBodyEntry.prop d) ∈ dct)
    (hres : key = "source" ∨ key = "target" ∨ key = "id" ∨ key = "element_id") :
    ∃ e, RelationshipMeta.new clsName dct = .error e := by
  unfold RelationshipMeta.new
  induction dct with
  | nil => simp at hmem
  | cons entry rest ih =>
    obtain ⟨ekey, eval⟩ := entry
    rcases List.mem_cons.mp hmem with heq | hrest
    · injection heq with e1 e2
      subst e1
      subst e2
      rcases hres with h | h | h | h
      · exact ⟨.reservedSourceTarget, by simp [bindRelProps, h]⟩
      · exact ⟨.reservedSourceTarget, by simp [bindRelProps, h]⟩
      · exact ⟨.reservedId, by simp [bindRelProps, h]⟩
      · exact ⟨.reservedElementId, by simp [bindRelProps, h]⟩
    · cases eval with
      | plain =>
        simpa [bindRelProps] using ih hrest
      | prop d' =>
        by_cases h1 : ekey = "source" ∨ ekey = "target"
        · exact ⟨.reservedSourceTarget, by simp [bindRelProps, h1]⟩
        · by_cases h2 : ekey = "id"
          · exact ⟨.reservedId, by simp [bindRelProps, h1, h2]⟩
          · by_cases h3 : ekey = "element_id"
            · exact ⟨.reservedElementId, by simp [bindRelProps, h1, h2, h3]⟩
            · obtain ⟨e, he⟩ := ih hrest
              refine ⟨e, ?_⟩
              simp only [bindRelProps, if_neg h1, if_neg h2, if_neg h3, he]
              rfl

/-- Witness for C5: a relationship class body declaring a property named
`source` fails class construction. -/
theorem reserved_names_fail_class_definition_witness :
    (("source", ClassBodyEntry.prop ⟨0, none, none⟩) ∈
      [("ok_prop", ClassBodyEntry.prop ⟨1, none, none⟩),
       ("source", ClassBodyEntry.prop ⟨0, none, none⟩)] ∧
      ("source" = "source" ∨ "source" = "target" ∨ "source" = "id" ∨
        "source" = "element_id")) ∧
    ∃ e, RelationshipMeta.new "MyRel"
      [("ok_prop", ClassBodyEntry.prop ⟨1, none, none⟩),
       ("source", ClassBodyEntry.prop ⟨0, none, none⟩)] = .error e :=
  ⟨⟨by decide, Or.inl rfl⟩,
   reserved_names_fail_class_definition "MyRel" "source" ⟨0, none, none⟩
     [("ok_prop", ClassBodyEntry.prop ⟨1, none, none⟩),
      ("source", ClassBodyEntry.prop ⟨0, none, none⟩)]
     (by decide) (Or.inl rfl)⟩

/-! ## `AsyncStructuredRel` identity accessors
(src/neomodantic/async_/relationship.py, lines 44-89 and 149-160) -/

/-- A Python value as stored in the identity attributes: `None`, a string, or
an integer. -/
inductive PyVal
  | noneV
  | str (s : String)
  | intV (n : Int)
deriving DecidableEq

/-- The kinds of exception the accessors can raise: an attribute lookup
failure, `TypeError`, or `ValueError` carrying its message. -/
inductive PyErrKind
  | attributeError
  | typeError
  | valueError (msg : String)
deriving DecidableEq

/-- The migration notice from the source module. -/
def ELEMENT_ID_MIGRATION_NOTICE : String :=
  "id is deprecated in Neo4j version 5, please migrate to element_id. If you use the id in a Cypher query, replace id() by elementId()."

/-- Python's `int(value)` on the stored identity value: an int passes through,
a string parses or raises `ValueError`, `None` raises `TypeError`. -/
def pyInt : PyVal → Except PyErrKind Int
  | .intV n => .ok n
  | .str s =>
    match s.toInt? with
    | some n => .ok n
    | none => .error (.valueError "invalid literal for int")
  | .noneV => .error .typeError

/-- The identity facets of a relationship instance.  Each is `none` when the
corresponding `*_property` attribute was never set on the instance (Python:
`hasattr` is false), and `some v` when it was set to `v` (possibly `None`). -/
structure StructuredRelState where
  element_id_property : Option PyVal
  start_node_element_id_property : Option PyVal
  end_node_element_id_property : Option PyVal
deriving DecidableEq

/-- A relationship constructed directly by application code: no identity
attribute is ever set by `__init__`. -/
def StructuredRel.new : StructuredRelState := ⟨none, none, none⟩

/-- A raw driver relationship: its own element id plus those of its
endpoints. -/
structure RawRelationship where
  element_id : PyVal
  start_node_element_id : PyVal
  end_node_element_id : PyVal
deriving DecidableEq

/-- The identity-capturing part of `AsyncStructuredRel.inflate` (lines
156-159): all three `*_property` attributes are assigned from the raw
relationship. -/
def StructuredRel.inflate (rel : RawRelationship) : StructuredRelState :=
  { element_id_property := some rel.element_id,
    start_node_element_id_property := some rel.start_node_element_id,
    end_node_element_id_property := some rel.end_node_element_id }

/-- `AsyncStructuredRel.element_id`: `if hasattr(self, "element_id_property"):
return self.element_id_property` — implicitly returns `None` when unset, and
never raises. -/
def StructuredRel.element_id (s : StructuredRelState) :
    Except PyErrKind (Option PyVal) :=
  match s.element_id_property with
  | some v => .ok (some v)
  | none => .ok none

/-- `AsyncStructuredRel._start_node_element_id`, same shape. -/
def StructuredRel.start_node_element_id (s : StructuredRelState) :
    Except PyErrKind (Option PyVal) :=
  match s.start_node_element_id_property with
  | some v => .ok (some v)
  | none => .ok none

/-- `AsyncStructuredRel._end_node_element_id`, same shape. -/
def StructuredRel.end_node_element_id (s : StructuredRelState) :
    Except PyErrKind (Option PyVal) :=
  match s.end_node_element_id_property with
  | some v => .ok (some v)
  | none => .ok none

/-- `AsyncStructuredRel.id`: `int(self.element_id_property)` inside a
`try/except (TypeError, ValueError)` that re-raises
`ValueError(ELEMENT_ID_MIGRATION_NOTICE)`.  When the attribute was never set,
reading it raises `AttributeError`, which that except clause does not catch. -/
def StructuredRel.id (s : StructuredRelState) : Except PyErrKind Int :=
  match s.element_id_property with
  | none => .error .attributeError
  | some v =>
    match pyInt v with
    | .ok n => .ok n
    | .error _ => .error (.valueError ELEMENT_ID_MIGRATION_NOTICE)

/-- `AsyncStructuredRel._start_node_id`, same shape over the start-endpoint
identity attribute. -/
def StructuredRel.start_node_id (s : StructuredRelState) : Except PyErrKind Int :=
  match s.start_node_element_id_property with
  | none => .error .attributeError
  | some v =>
    match pyInt v with
    | .ok n => .ok n
    | .error _ => .error (.valueError ELEMENT_ID_MIGRATION_NOTICE)

/-- `AsyncStructuredRel._end_node_id`, same shape over the end-endpoint
identity attribute. -/
def StructuredRel.end_node_id (s : StructuredRelState) : Except PyErrKind Int :=
  match s.end_node_element_id_property with
  | none => .error .attributeError
  | some v =>
    match pyInt v with
    | .ok n => .ok n
    | .error _ => .error (.valueError ELEMENT_ID_MIGRATION_NOTICE)

/-- Counterexample to C9: on a relationship whose element identifier was never
captured (direct construction), the legacy `id` accessor fails with an
attribute-lookup error, not with the migration `ValueError` — the
`except (TypeError, ValueError)` clause does not catch the `AttributeError`
raised by reading the missing `element_id_property` attribute. -/
theorem legacy_id_absent_counterexample :
    StructuredRel.id StructuredRel.new = .error .attributeError ∧
    StructuredRel.id StructuredRel.new ≠
      .error (.valueError ELEMENT_ID_MIGRATION_NOTICE) := by
  constructor
  · rfl
  · intro h
    rw [show StructuredRel.id StructuredRel.new = .error .attributeError from rfl] at h
    injection h with h'
    exact PyErrKind.noConfusion h'

/-- C9 amended: each legacy integer-identifier accessor fails with the
descriptive migration `ValueError` whenever the corresponding element
identifier attribute is present but cannot be coerced to an integer (it is
`None` or a non-numeric string), and succeeds with the coerced integer when it
can; when the attribute was never captured at all, the accessor instead fails
with a plain attribute error that does not carry the migration message. -/
theorem legacy_accessors_migration (s : StructuredRelState) :
    (s.element_id_property = none →
      StructuredRel.id s = .error .attributeError) ∧
    (∀ v, s.element_id_property = some v → (∃ e, pyInt v = .error e) →
      StructuredRel.id s = .error (.valueError ELEMENT_ID_MIGRATION_NOTICE)) ∧
    (∀ v n, s.element_id_property = some v → pyInt v = .ok n →
      StructuredRel.id s = .ok n) ∧
    (s.start_node_element_id_property = none →
      StructuredRel.start_node_id s = .error .attributeError) ∧
    (∀ v, s.start_node_element_id_property = some v → (∃ e, pyInt v = .error e) →
      StructuredRel.start_node_id s =
        .error (.valueError ELEMENT_ID_MIGRATION_NOTICE)) ∧
    (∀ v n, s.start_node_element_id_property = some v → pyInt v = .ok n →
      StructuredRel.start_node_id s = .ok n) ∧
    (s.end_node_element_id_property = none →
      StructuredRel.end_node_id s = .error .attributeError) ∧
    (∀ v, s.end_node_element_id_property = some v → (∃ e, pyInt v = .error e) →
      StructuredRel.end_node_id s =
        .error (.valueError ELEMENT_ID_MIGRATION_NOTICE)) ∧
    (∀ v n, s.end_node_element_id_property = some v → pyInt v = .ok n →
      StructuredRel.end_node_id s = .ok n) := by
  refine ⟨?_, ?_, ?_, ?_, ?_, ?_, ?_, ?_, ?_⟩
  · intro h
    simp [StructuredRel.id, h]
  · intro v hv ⟨e, he⟩
    simp [StructuredRel.id, hv, he]
  · intro v n hv hn
    simp [StructuredRel.id, hv, hn]
  · intro h
    simp [StructuredRel.start_node_id, h]
  · intro v hv ⟨e, he⟩
    simp [StructuredRel.start_node_id, hv, he]
  · intro v n hv hn
    simp [StructuredRel.start_node_id, hv, hn]
  · intro h
    simp [StructuredRel.end_node_id, h]
  · intro v hv ⟨e, he⟩
    simp [StructuredRel.end_node_id, hv, he]
  · intro v n hv hn
    simp [StructuredRel.end_node_id, hv, hn]

/-- Witness for the amended C9: on a relationship whose element id attribute
is present but holds `None`, `id` raises the migration error. -/
theorem legacy_accessors_migration_witness :
    ((StructuredRel.inflate ⟨.noneV, .str "7", .str "8"⟩).element_id_property
        = some .noneV ∧
      (∃ e, pyInt .noneV = .error e)) ∧
    StructuredRel.id (StructuredRel.inflate ⟨.noneV, .str "7", .str "8"⟩) =
      .error (.valueError ELEMENT_ID_MIGRATION_NOTICE) :=
  ⟨⟨rfl, ⟨.typeError, rfl⟩⟩,
   (legacy_accessors_migration
       (StructuredRel.inflate ⟨.noneV, .str "7", .str "8"⟩)).2.1
     .noneV rfl ⟨.typeError, rfl⟩⟩

/-- C10: on a relationship whose identity facets were never captured, the
modern accessors `element_id`, `_start_node_element_id` and
`_end_node_element_id` all return `None` (they are `hasattr`-guarded) rather
than raising; in particular this holds for a directly constructed instance. -/
theorem modern_accessors_return_none (s : StructuredRelState)
    (h1 : s.element_id_property = none)
    (h2 : s.start_node_element_id_property = none)
    (h3 : s.end_node_element_id_property = none) :
    StructuredRel.element_id s = .ok none ∧
    StructuredRel.start_node_element_id s = .ok none ∧
    StructuredRel.end_node_element_id s = .ok none := by
  refine ⟨?_, ?_, ?_⟩
  · simp [StructuredRel.element_id, h1]
  · simp [StructuredRel.start_node_element_id, h2]
  · simp [StructuredRel.end_node_element_id, h3]

/-- Witness for C10 at the directly constructed instance. -/
theorem modern_accessors_return_none_witness :
    (StructuredRel.new.element_id_property = none ∧
      StructuredRel.new.start_node_element_id_property = none ∧
      StructuredRel.new.end_node_element_id_property = none) ∧
    (StructuredRel.element_id StructuredRel.new = .ok none ∧
      StructuredRel.start_node_element_id StructuredRel.new = .ok none ∧
      StructuredRel.end_node_element_id StructuredRel.new = .ok none) :=
  ⟨⟨rfl, rfl, rfl⟩, modern_accessors_return_none StructuredRel.new rfl rfl rfl⟩

/-! ## Spatial values: `NeomodelPoint` and `PointProperty`
(src/neomodantic/contrib/spatial_properties.py, Shapely >= 2.0 branch,
lines 280-523 and 525-641).  Coordinates are modelled as rationals; the
`float(...)` conversions in the source are value-preserving here. -/

/-- Whether `pat`'s characters are a leading segment of `s`'s characters. -/
def charsStartWith : List Char → List Char → Bool
  | [], _ => true
  | _ :: _, [] => false
  | a :: as, b :: bs => a == b && charsStartWith as bs

/-- Whether `pat` occurs as a contiguous segment of `s`. -/
def charsContain (pat : List Char) : List Char → Bool
  | [] => charsStartWith pat []
  | b :: bs => charsStartWith pat (b :: bs) || charsContain pat bs

/-- Python `s.startswith(pat)`. -/
def strStarts (s pat : String) : Bool := charsStartWith pat.data s.data

/-- Python `pat in s` (substring membership). -/
def strHasSub (s pat : String) : Bool := charsContain pat.data s.data

/-- The acceptable Coordinate Reference Systems. -/
def ACCEPTABLE_CRS : List String := ["cartesian", "cartesian-3d", "wgs-84", "wgs-84-3d"]

/-- The SRID-to-CRS mapping of the source module. -/
def SRID_TO_CRS (srid : Nat) : Option String :=
  if srid = 7203 then some "cartesian"
  else if srid = 9157 then some "cartesian-3d"
  else if srid = 4326 then some "wgs-84"
  else if srid = 4979 then some "wgs-84-3d"
  else none

/-- The errors raised by the spatial module: each constructor corresponds to
one `raise` site (or to a Python-level `TypeError` from operating on `None`). -/
inductive SpatialError
  | invalidCRS (crs : String)
  | invalidDims (n : Nat)
  | copyTypeError
  | mixedFamilies
  | noArgs
  | crsDimMismatch (dims : Nat) (crs : String)
  | noneTypeError
  | invalidCoordinate (axis : String) (crs : String)
  | missingCoordinate
  | invalidPropertyCRS (crs : Option String)
  | invalidSRID (srid : Nat)
  | inflateCrsMismatch (expected received : String)
  | deflateCrsMismatch (expected received : String)
  | returnedNone
deriving DecidableEq

/-- A constructed `NeomodelPoint`: its `_crs` tag and the coordinates held by
the wrapped shapely point. -/
structure NeomodelPoint where
  crsTag : String
  coords : List ℚ
deriving DecidableEq

/-- The `crs` property of `NeomodelPoint`. -/
def NeomodelPoint.crs (p : NeomodelPoint) : String := p.crsTag

/-- The final dimensionality check and shapely-point construction of
`NeomodelPoint.__init__` (lines 426-441): with no third coordinate the CRS
must not be 3d, with one it must be; operating on a still-`None` CRS or
converting a missing coordinate with `float` is a Python `TypeError`. -/
def buildPoint (crs : Option String) (px py pz : Option ℚ) :
    Except SpatialError NeomodelPoint :=
  match pz with
  | none =>
    match crs with
    | none => .error .noneTypeError
    | some c =>
      if strHasSub c "-3d" then .error (.crsDimMismatch 2 c)
      else
        match px, py with
        | some a, some b => .ok ⟨c, [a, b]⟩
        | _, _ => .error .noneTypeError
  | some zz =>
    match crs with
    | none => .error .noneTypeError
    | some c =>
      if strHasSub c "-3d" then
        match px, py with
        | some a, some b => .ok ⟨c, [a, b, zz]⟩
        | _, _ => .error .noneTypeError
      else .error (.crsDimMismatch 3 c)

/-- The named-coordinate part of `NeomodelPoint.__init__` (lines 385-441):
mutual-exclusivity of the two axis families, the no-arguments check, the
geographical and geometrical initialisation branches with CRS inference, and
the final dimensionality check. -/
def namedCoordsInit (crs0 : Option String)
    (x y z longitude latitude height : Option ℚ) :
    Except SpatialError NeomodelPoint :=
  if (x.isSome || y.isSome || z.isSome) &&
      (latitude.isSome || longitude.isSome || height.isSome) then
    .error .mixedFamilies
  else if x.isNone && y.isNone && z.isNone && latitude.isNone &&
      longitude.isNone && height.isNone then
    .error .noArgs
  else
    let geoFired := latitude.isSome && longitude.isSome
    let crs1 :=
      if geoFired then
        if height.isSome then optOr crs0 (some "wgs-84-3d")
        else optOr crs0 (some "wgs-84")
      else crs0
    let gx := if geoFired then longitude else none
    let gy := if geoFired then latitude else none
    let gz := if geoFired then height else none
    if x.isSome && y.isSome then
      match z with
      | some _ => buildPoint (optOr crs1 (some "cartesian-3d")) x y z
      | none => buildPoint (optOr crs1 (some "cartesian")) x y gz
    else buildPoint crs1 gx gy gz

/-- A positional argument to the `NeomodelPoint` constructor: a coordinate
sequence (tuple or list), an existing `NeomodelPoint`, a plain shapely point
(given by its single coordinate tuple), or any other object. -/
inductive PosArg
  | coordSeq (l : List ℚ)
  | neoPoint (p : NeomodelPoint)
  | shapelyPoint (cs : List ℚ)
  | otherObj

/-- `NeomodelPoint.__init__` (lines 294-441): CRS validity check, then the
copy-constructor / coordinate-sequence branches, then named-coordinate
initialisation.  A coordinate sequence overwrites the `x`/`y` keywords (and
`z` only when it has three entries); copy-construction from a `NeomodelPoint`
carries its CRS and coordinates over; copy-construction from a plain shapely
point keeps an explicitly supplied CRS and otherwise infers it from the
source's arity, with no dimensionality check against that CRS. -/
def neomodelPointInit (arg : Option PosArg) (crs0 : Option String)
    (x0 y0 z0 longitude0 latitude0 height0 : Option ℚ) :
    Except SpatialError NeomodelPoint :=
  match crs0 with
  | some c =>
    if ACCEPTABLE_CRS.contains c then
      match arg with
      | none => namedCoordsInit (some c) x0 y0 z0 longitude0 latitude0 height0
      | some (.coordSeq l) =>
        if l.length < 2 || l.length > 3 then .error (.invalidDims l.length)
        else
          namedCoordsInit (some c) l[0]? l[1]?
            (if l.length = 3 then l[2]? else z0) longitude0 latitude0 height0
      | some (.neoPoint p) => .ok ⟨p.crsTag, p.coords⟩
      | some (.shapelyPoint cs) =>
        if cs.length = 2 then .ok ⟨c, cs⟩
        else if cs.length = 3 then .ok ⟨c, cs⟩
        else .error (.invalidDims cs.length)
      | some .otherObj => .error .copyTypeError
    else .error (.invalidCRS c)
  | none =>
    match arg with
    | none => namedCoordsInit none x0 y0 z0 longitude0 latitude0 height0
    | some (.coordSeq l) =>
      if l.length < 2 || l.length > 3 then .error (.invalidDims l.length)
      else
        namedCoordsInit none l[0]? l[1]?
          (if l.length = 3 then l[2]? else z0) longitude0 latitude0 height0
    | some (.neoPoint p) => .ok ⟨p.crsTag, p.coords⟩
    | some (.shapelyPoint cs) =>
      if cs.length = 2 then .ok ⟨"cartesian", cs⟩
      else if cs.length = 3 then .ok ⟨"cartesian-3d", cs⟩
      else .error (.invalidDims cs.length)
    | some .otherObj => .error .copyTypeError

/-- Coordinate access on the wrapped shapely point; a missing coordinate (for
example `.z` of a 2-coordinate point) raises. -/
def NeomodelPoint.coordAt (p : NeomodelPoint) (i : Nat) : Except SpatialError ℚ :=
  match p.coords[i]? with
  | some v => .ok v
  | none => .error .missingCoordinate

/-- `NeomodelPoint.x`: only for points over a cartesian CRS. -/
def NeomodelPoint.x (p : NeomodelPoint) : Except SpatialError ℚ :=
  if strStarts p.crsTag "cartesian" then p.coordAt 0
  else .error (.invalidCoordinate "x" p.crsTag)

/-- `NeomodelPoint.y`: only for points over a cartesian CRS. -/
def NeomodelPoint.y (p : NeomodelPoint) : Except SpatialError ℚ :=
  if strStarts p.crsTag "cartesian" then p.coordAt 1
  else .error (.invalidCoordinate "y" p.crsTag)

/-- `NeomodelPoint.z`: only for points over `cartesian-3d`. -/
def NeomodelPoint.z (p : NeomodelPoint) : Except SpatialError ℚ :=
  if p.crsTag = "cartesian-3d" then p.coordAt 2
  else .error (.invalidCoordinate "z" p.crsTag)

/-- `NeomodelPoint.latitude`: only for points over a wgs-84 CRS. -/
def NeomodelPoint.latitude (p : NeomodelPoint) : Except SpatialError ℚ :=
  if strStarts p.crsTag "wgs-84" then p.coordAt 1
  else .error (.invalidCoordinate "latitude" p.crsTag)

/-- `NeomodelPoint.longitude`: only for points over a wgs-84 CRS. -/
def NeomodelPoint.longitude (p : NeomodelPoint) : Except SpatialError ℚ :=
  if strStarts p.crsTag "wgs-84" then p.coordAt 0
  else .error (.invalidCoordinate "longitude" p.crsTag)

/-- `NeomodelPoint.height`: only for points over `wgs-84-3d`. -/
def NeomodelPoint.height (p : NeomodelPoint) : Except SpatialError ℚ :=
  if p.crsTag = "wgs-84-3d" then p.coordAt 2
  else .error (.invalidCoordinate "height" p.crsTag)

/-- A constructed `PointProperty`: the CRS it validates against. -/
structure PointPropertyD where
  crsTag : String
deriving DecidableEq

/-- `PointProperty.__init__`: the CRS must be supplied and acceptable,
otherwise a `ValueError` is raised at declaration time. -/
def pointPropertyInit (crs0 : Option String) : Except SpatialError PointPropertyD :=
  match crs0 with
  | none => .error (.invalidPropertyCRS none)
  | some c =>
    if ACCEPTABLE_CRS.contains c then .ok ⟨c⟩
    else .error (.invalidPropertyCRS (some c))

/-- A wire-level `neo4j.spatial.Point`: its SRID and coordinate tuple. -/
structure WirePoint where
  srid : Nat
  wireCoords : List ℚ
deriving DecidableEq

/-- `neo4j.spatial.CartesianPoint`: SRID 9157 for three coordinates, 7203
otherwise. -/
def CartesianPoint (cs : List ℚ) : WirePoint :=
  ⟨if cs.length = 3 then 9157 else 7203, cs⟩

/-- `neo4j.spatial.WGS84Point`: SRID 4979 for three coordinates, 4326
otherwise. -/
def WGS84Point (cs : List ℚ) : WirePoint :=
  ⟨if cs.length = 3 then 4979 else 4326, cs⟩

/-- Coordinate access on a wire point (`value.x`, `value.longitude`, ...);
absent coordinates raise. -/
def WirePoint.coordAt (w : WirePoint) (i : Nat) : Except SpatialError ℚ :=
  match w.wireCoords[i]? with
  | some v => .ok v
  | none => .error .missingCoordinate

/-- `PointProperty.inflate` (lines 568-609): the wire SRID must be a known
code, must map to the declared CRS, and the value is rebuilt through the
`NeomodelPoint` constructor with the CRS-appropriate named coordinates.  The
source's trailing `return None` is unreachable because every known SRID is
handled; it is modelled as a distinct error. -/
def PointProperty.inflate (pp : PointPropertyD) (w : WirePoint) :
    Except SpatialError NeomodelPoint :=
  match SRID_TO_CRS w.srid with
  | none => .error (.invalidSRID w.srid)
  | some valueCrs =>
    if pp.crsTag ≠ valueCrs then .error (.inflateCrsMismatch pp.crsTag valueCrs)
    else if w.srid = 7203 then do
      let a ← w.coordAt 0
      let b ← w.coordAt 1
      neomodelPointInit none none (some a) (some b) none none none none
    else if w.srid = 9157 then do
      let a ← w.coordAt 0
      let b ← w.coordAt 1
      let c ← w.coordAt 2
      neomodelPointInit none none (some a) (some b) (some c) none none none
    else if w.srid = 4326 then do
      let lon ← w.coordAt 0
      let lat ← w.coordAt 1
      neomodelPointInit none none none none none (some lon) (some lat) none
    else if w.srid = 4979 then do
      let lon ← w.coordAt 0
      let lat ← w.coordAt 1
      let h ← w.coordAt 2
      neomodelPointInit none none none none none (some lon) (some lat) (some h)
    else .error .returnedNone

/-- `PointProperty.deflate` (lines 611-640): the value's CRS must equal the
declared CRS; the wire point is then built from the CRS-gated accessors in
the CRS-appropriate coordinate order.  The trailing `return None` is
unreachable for acceptable CRS tags and modelled as a distinct error. -/
def PointProperty.deflate (pp : PointPropertyD) (v : NeomodelPoint) :
    Except SpatialError WirePoint :=
  if v.crs ≠ pp.crsTag then .error (.deflateCrsMismatch pp.crsTag v.crs)
  else if v.crs = "cartesian-3d" then do
    let a ← NeomodelPoint.x v
    let b ← NeomodelPoint.y v
    let c ← NeomodelPoint.z v
    .ok (CartesianPoint [a, b, c])
  else if v.crs = "cartesian" then do
    let a ← NeomodelPoint.x v
    let b ← NeomodelPoint.y v
    .ok (CartesianPoint [a, b])
  else if v.crs = "wgs-84" then do
    let lon ← NeomodelPoint.longitude v
    let lat ← NeomodelPoint.latitude v
    .ok (WGS84Point [lon, lat])
  else if v.crs = "wgs-84-3d" then do
    let lon ← NeomodelPoint.longitude v
    let lat ← NeomodelPoint.latitude v
    let h ← NeomodelPoint.height v
    .ok (WGS84Point [lon, lat, h])
  else .error .returnedNone

theorem buildPoint_ok_arity (crs : Option String) (px py pz : Option ℚ)
    (p : NeomodelPoint) (h : buildPoint crs px py pz = .ok p) :
    (strHasSub p.crsTag "-3d" = true ∧ p.coords.length = 3) ∨
    (strHasSub p.crsTag "-3d" = false ∧ p.coords.length = 2) := by
  cases pz with
  | none =>
    cases crs with
    | none =>
      simp only [buildPoint] at h
      exact Except.noConfusion h
    | some c =>
      simp only [buildPoint] at h
      by_cases h3 : strHasSub c "-3d" = true
      · rw [if_pos h3] at h
        exact Except.noConfusion h
      · rw [if_neg h3] at h
        cases px with
        | none =>
          cases py <;> exact Except.noConfusion h
        | some a =>
          cases py with
          | none => exact Except.noConfusion h
          | some b =>
            injection h with h'
            subst h'
            exact Or.inr ⟨by simpa using h3, rfl⟩
  | some zz =>
    cases crs with
    | none =>
      simp only [buildPoint] at h
      exact Except.noConfusion h
    | some c =>
      simp only [buildPoint] at h
      by_cases h3 : strHasSub c "-3d" = true
      · rw [if_pos h3] at h
        cases px with
        | none =>
          cases py <;> exact Except.noConfusion h
        | some a =>
          cases py with
          | none => exact Except.noConfusion h
          | some b =>
            injection h with h'
            subst h'
            exact Or.inl ⟨h3, rfl⟩
      · rw [if_neg h3] at h
        exact Except.noConfusion h

theorem namedCoordsInit_ok_arity (crs0 : Option String)
    (x y z lon lat ht : Option ℚ) (p : NeomodelPoint)
    (hok : namedCoordsInit crs0 x y z lon lat ht = .ok p) :
    (strHasSub p.crsTag "-3d" = true ∧ p.coords.length = 3) ∨
    (strHasSub p.crsTag "-3d" = false ∧ p.coords.length = 2) := by
  unfold namedCoordsInit at hok
  simp only [] at hok
  repeat' split at hok
  all_goals
    first
      | exact Except.noConfusion hok
      | exact buildPoint_ok_arity _ _ _ _ p hok

/-- Counterexample to C7: copy-constructing from a plain (shapely) point with
2 coordinates while explicitly supplying the 3d CRS `cartesian-3d` succeeds —
the copy-constructor branch performs no dimensionality check against an
explicitly supplied CRS. -/
theorem crs_arity_counterexample :
    (neomodelPointInit (some (.shapelyPoint [0, 0])) (some "cartesian-3d")
      none none none none none none = .ok ⟨"cartesian-3d", [0, 0]⟩) ∧
    ¬ ∃ e, neomodelPointInit (some (.shapelyPoint [0, 0])) (some "cartesian-3d")
      none none none none none none = .error e := by
  constructor
  · rfl
  · rintro ⟨e, he⟩
    rw [show neomodelPointInit (some (.shapelyPoint [0, 0])) (some "cartesian-3d")
        none none none none none none = .ok ⟨"cartesian-3d", [0, 0]⟩ from rfl] at he
    exact Except.noConfusion he

/-- C7 amended: for construction from named coordinates or from a coordinate
sequence, the determined CRS (explicit or inferred) must match the supplied
coordinate arity — success implies a 3d CRS holds exactly 3 coordinates and a
non-3d CRS exactly 2.  The copy-constructor branch is the exception: copying a
plain point with an explicitly supplied acceptable CRS succeeds with that CRS
regardless of its dimensionality. -/
theorem crs_arity_checked_except_copy :
    (∀ (crs0 : Option String) (x y z lon lat ht : Option ℚ) (p : NeomodelPoint),
      neomodelPointInit none crs0 x y z lon lat ht = .ok p →
      (strHasSub p.crsTag "-3d" = true ∧ p.coords.length = 3) ∨
      (strHasSub p.crsTag "-3d" = false ∧ p.coords.length = 2)) ∧
    (∀ (l : List ℚ) (crs0 : Option String) (x y z lon lat ht : Option ℚ)
        (p : NeomodelPoint),
      neomodelPointInit (some (.coordSeq l)) crs0 x y z lon lat ht = .ok p →
      (strHasSub p.crsTag "-3d" = true ∧ p.coords.length = 3) ∨
      (strHasSub p.crsTag "-3d" = false ∧ p.coords.length = 2)) ∧
    (∀ (cs : List ℚ) (c : String), ACCEPTABLE_CRS.contains c = true →
      cs.length = 2 →
      ∃ p, neomodelPointInit (some (.shapelyPoint cs)) (some c)
          none none none none none none = .ok p ∧
        p.crsTag = c ∧ p.coords.length = 2) := by
  refine ⟨?_, ?_, ?_⟩
  · intro crs0 x y z lon lat ht p hok
    cases crs0 with
    | none =>
      simp only [neomodelPointInit] at hok
      exact namedCoordsInit_ok_arity _ _ _ _ _ _ _ p hok
    | some c =>
      simp only [neomodelPointInit] at hok
      by_cases hc : ACCEPTABLE_CRS.contains c = true
      · rw [if_pos hc] at hok
        exact namedCoordsInit_ok_arity _ _ _ _ _ _ _ p hok
      · rw [if_neg hc] at hok
        exact Except.noConfusion hok
  · intro l crs0 x y z lon lat ht p hok
    cases crs0 with
    | none =>
      simp only [neomodelPointInit] at hok
      by_cases hl : (l.length < 2 || l.length > 3) = true
      · rw [if_pos hl] at hok
        exact Except.noConfusion hok
      · rw [if_neg hl] at hok
        exact namedCoordsInit_ok_arity _ _ _ _ _ _ _ p hok
    | some c =>
      simp only [neomodelPointInit] at hok
      by_cases hc : ACCEPTABLE_CRS.contains c = true
      · rw [if_pos hc] at hok
        by_cases hl : (l.length < 2 || l.length > 3) = true
        · rw [if_pos hl] at hok
          exact Except.noConfusion hok
        · rw [if_neg hl] at hok
          exact namedCoordsInit_ok_arity _ _ _ _ _ _ _ p hok
      · rw [if_neg hc] at hok
        exact Except.noConfusion hok
  · intro cs c hc hlen
    refine ⟨⟨c, cs⟩, ?_, rfl, hlen⟩
    simp only [neomodelPointInit]
    rw [if_pos hc, if_pos hlen]

/-- Witness for the amended C7: the named-coordinate construction
`NeomodelPoint(x=1, y=2)` yields a non-3d CRS with exactly 2 coordinates. -/
theorem crs_arity_checked_except_copy_witness :
    (neomodelPointInit none none (some 1) (some 2) none none none none =
      .ok ⟨"cartesian", [1, 2]⟩) ∧
    ((strHasSub (NeomodelPoint.crsTag ⟨"cartesian", [(1 : ℚ), 2]⟩) "-3d" = true ∧
        (NeomodelPoint.coords ⟨"cartesian", [(1 : ℚ), 2]⟩).length = 3) ∨
      (strHasSub (NeomodelPoint.crsTag ⟨"cartesian", [(1 : ℚ), 2]⟩) "-3d" = false ∧
        (NeomodelPoint.coords ⟨"cartesian", [(1 : ℚ), 2]⟩).length = 2)) :=
  ⟨rfl, crs_arity_checked_except_copy.1 none (some 1) (some 2) none none none none
    ⟨"cartesian", [1, 2]⟩ rfl⟩

/-- C4: the round-trip law for `PointProperty`.  For a property declared over
any acceptable CRS and a point of that CRS with the matching coordinate arity,
re-inflating the deflated wire value returns a point with identical CRS and
coordinates — in particular a cartesian-3d point keeps x, y and z exactly. -/
theorem point_property_roundtrip (crs : String) (pp : PointPropertyD)
    (p : NeomodelPoint)
    (hinit : pointPropertyInit (some crs) = .ok pp)
    (hcrs : p.crsTag = crs)
    (harity : p.coords.length = if strHasSub crs "-3d" then 3 else 2) :
    (PointProperty.deflate pp p).bind (PointProperty.inflate pp) = .ok p := by
  simp only [pointPropertyInit] at hinit
  by_cases hc : ACCEPTABLE_CRS.contains crs = true
  · rw [if_pos hc] at hinit
    injection hinit with h'
    subst h'
    obtain ⟨ct, cs⟩ := p
    simp only at hcrs
    subst hcrs
    have hmem : ct ∈ ACCEPTABLE_CRS := List.mem_of_elem_eq_true hc
    simp only [ACCEPTABLE_CRS, List.mem_cons, List.mem_singleton,
      List.not_mem_nil, or_false] at hmem
    rcases hmem with h | h | h | h <;> subst h
    · rw [show (if strHasSub "cartesian" "-3d" = true then (3 : ℕ) else 2) = 2
        from rfl] at harity
      obtain ⟨a, b, rfl⟩ := List.length_eq_two.mp harity
      rfl
    · rw [show (if strHasSub "cartesian-3d" "-3d" = true then (3 : ℕ) else 2) = 3
        from rfl] at harity
      obtain ⟨a, b, c, rfl⟩ := List.length_eq_three.mp harity
      rfl
    · rw [show (if strHasSub "wgs-84" "-3d" = true then (3 : ℕ) else 2) = 2
        from rfl] at harity
      obtain ⟨a, b, rfl⟩ := List.length_eq_two.mp harity
      rfl
    · rw [show (if strHasSub "wgs-84-3d" "-3d" = true then (3 : ℕ) else 2) = 3
        from rfl] at harity
      obtain ⟨a, b, c, rfl⟩ := List.length_eq_three.mp harity
      rfl
  · rw [if_neg hc] at hinit
    exact Except.noConfusion hinit

/-- Witness for C4: a concrete cartesian-3d point round-trips through
`PointProperty(crs="cartesian-3d")` with x, y, z intact. -/
theorem point_property_roundtrip_witness :
    (pointPropertyInit (some "cartesian-3d") = .ok ⟨"cartesian-3d"⟩ ∧
      NeomodelPoint.crsTag ⟨"cartesian-3d", [(1 : ℚ), 2, 3]⟩ = "cartesian-3d" ∧
      (NeomodelPoint.coords ⟨"cartesian-3d", [(1 : ℚ), 2, 3]⟩).length =
        if strHasSub "cartesian-3d" "-3d" then 3 else 2) ∧
    (PointProperty.deflate ⟨"cartesian-3d"⟩ ⟨"cartesian-3d", [(1 : ℚ), 2, 3]⟩).bind
      (PointProperty.inflate ⟨"cartesian-3d"⟩) =
      .ok ⟨"cartesian-3d", [(1 : ℚ), 2, 3]⟩ :=
  ⟨⟨rfl, rfl, rfl⟩,
   point_property_roundtrip "cartesian-3d" ⟨"cartesian-3d"⟩
     ⟨"cartesian-3d", [1, 2, 3]⟩ rfl rfl rfl⟩

/-- C6: `NeomodelPoint(x=1, y=2)` gets CRS `cartesian` and `.latitude` on it
raises; `NeomodelPoint(longitude=10, latitude=20)` gets CRS `wgs-84` and `.z`
on it raises; `NeomodelPoint((1,2,3), crs="cartesian-3d")` has `.z == 3`; and
in general every axis accessor raises on a point whose CRS does not admit that
axis — it never yields a default value. -/
theorem axis_accessors_crs_gated :
    (neomodelPointInit none none (some 1) (some 2) none none none none =
      .ok ⟨"cartesian", [1, 2]⟩) ∧
    NeomodelPoint.crs ⟨"cartesian", [1, 2]⟩ = "cartesian" ∧
    NeomodelPoint.latitude ⟨"cartesian", [1, 2]⟩ =
      .error (.invalidCoordinate "latitude" "cartesian") ∧
    (neomodelPointInit none none none none none (some 10) (some 20) none =
      .ok ⟨"wgs-84", [10, 20]⟩) ∧
    NeomodelPoint.crs ⟨"wgs-84", [10, 20]⟩ = "wgs-84" ∧
    NeomodelPoint.z ⟨"wgs-84", [10, 20]⟩ =
      .error (.invalidCoordinate "z" "wgs-84") ∧
    (neomodelPointInit (some (.coordSeq [1, 2, 3])) (some "cartesian-3d")
      none none none none none none = .ok ⟨"cartesian-3d", [1, 2, 3]⟩) ∧
    NeomodelPoint.z ⟨"cartesian-3d", [1, 2, 3]⟩ = .ok 3 ∧
    (∀ p : NeomodelPoint, strStarts p.crsTag "cartesian" = false →
      (∃ e, NeomodelPoint.x p = .error e) ∧ (∃ e, NeomodelPoint.y p = .error e)) ∧
    (∀ p : NeomodelPoint, p.crsTag ≠ "cartesian-3d" →
      ∃ e, NeomodelPoint.z p = .error e) ∧
    (∀ p : NeomodelPoint, strStarts p.crsTag "wgs-84" = false →
      (∃ e, NeomodelPoint.latitude p = .error e) ∧
      (∃ e, NeomodelPoint.longitude p = .error e)) ∧
    (∀ p : NeomodelPoint, p.crsTag ≠ "wgs-84-3d" →
      ∃ e, NeomodelPoint.height p = .error e) := by
  refine ⟨rfl, rfl, rfl, rfl, rfl, rfl, rfl, rfl, ?_, ?_, ?_, ?_⟩
  · intro p hp
    exact ⟨⟨.invalidCoordinate "x" p.crsTag, by simp [NeomodelPoint.x, hp]⟩,
      ⟨.invalidCoordinate "y" p.crsTag, by simp [NeomodelPoint.y, hp]⟩⟩
  · intro p hp
    exact ⟨.invalidCoordinate "z" p.crsTag, by simp [NeomodelPoint.z, hp]⟩
  · intro p hp
    exact ⟨⟨.invalidCoordinate "latitude" p.crsTag,
        by simp [NeomodelPoint.latitude, hp]⟩,
      ⟨.invalidCoordinate "longitude" p.crsTag,
        by simp [NeomodelPoint.longitude, hp]⟩⟩
  · intro p hp
    exact ⟨.invalidCoordinate "height" p.crsTag,
      by simp [NeomodelPoint.height, hp]⟩

/-- Witness for C6: the general wgs-84 gating applied to the concrete
cartesian point, so `.latitude` on it raises. -/
theorem axis_accessors_crs_gated_witness :
    strStarts (NeomodelPoint.crsTag ⟨"cartesian", [(1 : ℚ), 2]⟩) "wgs-84" = false ∧
    ∃ e, NeomodelPoint.latitude ⟨"cartesian", [(1 : ℚ), 2]⟩ = .error e := by
  obtain ⟨-, -, -, -, -, -, -, -, -, -, hlat, -⟩ := axis_accessors_crs_gated
  exact ⟨rfl, (hlat ⟨"cartesian", [1, 2]⟩ rfl).1⟩

/-- C8: `PointProperty.inflate` validates the wire SRID: an unknown SRID is an
invalid-SRID error, and a known SRID whose CRS differs from the declared one
is a CRS-mismatch error naming both the expected and the received CRS — in
particular a `wgs-84` property given a cartesian-SRID (7203) wire value. -/
theorem inflate_crs_validation (pp : PointPropertyD) (w : WirePoint) :
    (∀ c, SRID_TO_CRS w.srid = some c → pp.crsTag ≠ c →
      PointProperty.inflate pp w = .error (.inflateCrsMismatch pp.crsTag c)) ∧
    (SRID_TO_CRS w.srid = none →
      PointProperty.inflate pp w = .error (.invalidSRID w.srid)) ∧
    (pp.crsTag = "wgs-84" → w.srid = 7203 →
      PointProperty.inflate pp w =
        .error (.inflateCrsMismatch "wgs-84" "cartesian")) := by
  refine ⟨?_, ?_, ?_⟩
  · intro c hc hne
    simp [PointProperty.inflate, hc, hne]
  · intro h
    simp [PointProperty.inflate, h]
  · intro hcrs hsrid
    have hc : SRID_TO_CRS w.srid = some "cartesian" := by
      rw [hsrid]
      rfl
    have hne : pp.crsTag ≠ "cartesian" := by
      rw [hcrs]
      decide
    simp [PointProperty.inflate, hc, hne, hcrs]

/-- Witness for C8: a `wgs-84` property rejects a concrete cartesian wire
point with the CRS-mismatch error. -/
theorem inflate_crs_validation_witness :
    ((PointPropertyD.crsTag ⟨"wgs-84"⟩ = "wgs-84") ∧
      (CartesianPoint [(1 : ℚ), 2]).srid = 7203) ∧
    PointProperty.inflate ⟨"wgs-84"⟩ (CartesianPoint [(1 : ℚ), 2]) =
      .error (.inflateCrsMismatch "wgs-84" "cartesian") :=
  ⟨⟨rfl, rfl⟩,
   (inflate_crs_validation ⟨"wgs-84"⟩ (CartesianPoint [1, 2])).2.2 rfl rfl⟩
